import Mathlib

/-!
Verification of the tennis-ranking application's ranking/validation core.

The definitions below are a shallow embedding of the server code:
  - src/shared/schema.ts   (data model)
  - src/server/storage.ts  (MemStorage: ledger lookups/updates, validateMatch,
                            updatePlayerRankingsForMatch, getRankingPlayers)
  - src/server/routes.ts   (POST /api/matches handler, from the
                            player1 = player2 check onward; the session /
                            authorization checks before that point belong to
                            the Access Policy, which the design document
                            treats as an external collaborator)

JavaScript Maps keyed by auto-increment ids are modelled as lists kept in
insertion order together with the id counters; Map.set of a fresh key is a
list append, Map.set of an existing key is an in-place replacement.
-/

namespace TennisRank

/-- Player category enum from shared/schema.ts: 'C' | 'B' | 'A' | 'S' | 'SS'. -/
inductive Category
  | C
  | B
  | A
  | S
  | SS
deriving DecidableEq, Repr

/-- Match status enum from shared/schema.ts. -/
inductive MatchStatus
  | pending
  | approved
  | rejected
deriving DecidableEq, Repr

/-- User role enum from shared/schema.ts. -/
inductive Role
  | player
  | admin
deriving DecidableEq, Repr

/-- One set of a match score: the two game counts (schema.ts score column). -/
structure SetScore where
  player1Score : Nat
  player2Score : Nat
deriving DecidableEq, Repr

/-- The score json column: an ordered list of sets plus an optional tiebreak pair. -/
structure Score where
  sets : List SetScore
  tiebreak : Option SetScore
deriving DecidableEq, Repr

/-- users table row. -/
structure User where
  id : Nat
  username : String
  password : String
  fullName : String
  email : String
  photoUrl : Option String
  role : Role
  suspendedUntil : Option Nat
deriving DecidableEq, Repr

/-- rankings table row. -/
structure Ranking where
  id : Nat
  name : String
  description : Option String
  isPublic : Bool
  requiresValidation : Bool
  createdById : Nat
deriving DecidableEq, Repr

/-- player_rankings table row: the ledger entry keyed by (playerId, rankingId). -/
structure PlayerRanking where
  id : Nat
  playerId : Nat
  rankingId : Nat
  category : Category
  points : Nat
  wins : Nat
  losses : Nat
deriving DecidableEq, Repr

/-- Insert shape for player_rankings (id omitted), as passed to createPlayerRanking. -/
structure InsertPlayerRanking where
  playerId : Nat
  rankingId : Nat
  category : Category
  points : Nat
  wins : Nat
  losses : Nat
deriving DecidableEq, Repr

/-- locations table row. -/
structure Location where
  id : Nat
  name : String
  address : Option String
  createdById : Nat
deriving DecidableEq, Repr

/-- matches table row.  Timestamps are abstract ticks.  createdAt is optional
because MemStorage.createMatch spreads the insert shape (which omits
createdAt) and never fills the field in. -/
structure Match where
  id : Nat
  rankingId : Nat
  player1Id : Nat
  player2Id : Nat
  locationId : Option Nat
  locationName : Option String
  photoUrl : Option String
  status : MatchStatus
  rejectionReason : Option String
  playedAt : Nat
  createdAt : Option Nat
  score : Score
deriving DecidableEq, Repr

/-- Insert shape for matches: insertMatchSchema omits id and createdAt. -/
structure InsertMatch where
  rankingId : Nat
  player1Id : Nat
  player2Id : Nat
  locationId : Option Nat
  locationName : Option String
  photoUrl : Option String
  status : MatchStatus
  rejectionReason : Option String
  playedAt : Nat
  score : Score
deriving DecidableEq, Repr

/-- MemStorage state: the five Maps (as insertion-ordered lists) and the id
counters. -/
structure MemStorage where
  users : List User
  rankings : List Ranking
  playerRankings : List PlayerRanking
  locations : List Location
  matchesMap : List Match
  userIdCounter : Nat
  rankingIdCounter : Nat
  playerRankingIdCounter : Nat
  locationIdCounter : Nat
  matchIdCounter : Nat
deriving DecidableEq, Repr

/-- MemStorage.getRanking. -/
def getRanking (s : MemStorage) (id : Nat) : Option Ranking :=
  s.rankings.find? (fun r => r.id == id)

/-- MemStorage.getMatch. -/
def getMatch (s : MemStorage) (id : Nat) : Option Match :=
  s.matchesMap.find? (fun m => m.id == id)

/-- MemStorage.getPlayerRanking: first entry whose (playerId, rankingId) pair
matches, in insertion order. -/
def getPlayerRanking (s : MemStorage) (playerId rankingId : Nat) : Option PlayerRanking :=
  s.playerRankings.find? (fun pr => pr.playerId == playerId && pr.rankingId == rankingId)

/-- MemStorage.createPlayerRanking: allocate the next id and append. -/
def createPlayerRanking (s : MemStorage) (ins : InsertPlayerRanking) :
    PlayerRanking × MemStorage :=
  let id := s.playerRankingIdCounter
  let pr : PlayerRanking :=
    { id := id, playerId := ins.playerId, rankingId := ins.rankingId,
      category := ins.category, points := ins.points, wins := ins.wins,
      losses := ins.losses }
  (pr, { s with playerRankings := s.playerRankings ++ [pr],
                playerRankingIdCounter := id + 1 })

/-- MemStorage.updatePlayerRanking: spread the partial data over the entry with
the given id (Map.set on an existing key keeps its position).  The partial
data argument is modelled as the record-update function it denotes. -/
def updatePlayerRanking (s : MemStorage) (id : Nat) (data : PlayerRanking → PlayerRanking) :
    MemStorage :=
  { s with playerRankings :=
      s.playerRankings.map (fun pr => if pr.id == id then data pr else pr) }

/-- Set counting loop of updatePlayerRankingsForMatch: a set is counted for the
side with the strictly greater game count, ties for neither. -/
def setCounts (sets : List SetScore) : Nat × Nat :=
  sets.foldl
    (fun acc st =>
      if st.player1Score > st.player2Score then (acc.1 + 1, acc.2)
      else if st.player2Score > st.player1Score then (acc.1, acc.2 + 1)
      else acc)
    (0, 0)

/-- player1IsWinner = player1Sets > player2Sets (storage.ts line 401).  The
tiebreak field is never read. -/
def isPlayer1Winner (score : Score) : Bool :=
  (setCounts score.sets).1 > (setCounts score.sets).2

/-- Spec-side description of the set counting (spec 4.1): the number of sets in
which player1's game count is strictly greater. -/
def setsWonByPlayer1 (sets : List SetScore) : Nat :=
  (sets.filter (fun st => st.player2Score < st.player1Score)).length

/-- Spec-side description of the set counting (spec 4.1): the number of sets in
which player2's game count is strictly greater. -/
def setsWonByPlayer2 (sets : List SetScore) : Nat :=
  (sets.filter (fun st => st.player1Score < st.player2Score)).length

lemma setCounts_go (sets : List SetScore) : ∀ (a b : Nat),
    sets.foldl
      (fun acc st =>
        if st.player1Score > st.player2Score then (acc.1 + 1, acc.2)
        else if st.player2Score > st.player1Score then (acc.1, acc.2 + 1)
        else acc)
      (a, b)
    = (a + setsWonByPlayer1 sets, b + setsWonByPlayer2 sets) := by
  induction sets with
  | nil => intro a b; simp [setsWonByPlayer1, setsWonByPlayer2]
  | cons st rest ih =>
    intro a b
    simp only [List.foldl_cons, setsWonByPlayer1, setsWonByPlayer2, List.filter_cons]
    rcases Nat.lt_trichotomy st.player1Score st.player2Score with h | h | h
    · have h1 : ¬ st.player1Score > st.player2Score := by omega
      have h2 : st.player2Score > st.player1Score := h
      simp only [if_neg h1, if_pos h2]
      rw [ih a (b + 1)]
      have d1 : decide (st.player2Score < st.player1Score) = false := by
        simp; omega
      have d2 : decide (st.player1Score < st.player2Score) = true := by
        simp; omega
      rw [d1, d2]
      simp [setsWonByPlayer1, setsWonByPlayer2]
      omega
    · have h1 : ¬ st.player1Score > st.player2Score := by omega
      have h2 : ¬ st.player2Score > st.player1Score := by omega
      simp only [if_neg h1, if_neg h2]
      rw [ih a b]
      have d1 : decide (st.player2Score < st.player1Score) = false := by
        simp; omega
      have d2 : decide (st.player1Score < st.player2Score) = false := by
        simp; omega
      rw [d1, d2]
      simp [setsWonByPlayer1, setsWonByPlayer2]
    · have h1 : st.player1Score > st.player2Score := h
      simp only [if_pos h1]
      rw [ih (a + 1) b]
      have d1 : decide (st.player2Score < st.player1Score) = true := by
        simp; omega
      have d2 : decide (st.player1Score < st.player2Score) = false := by
        simp; omega
      rw [d1, d2]
      simp [setsWonByPlayer1, setsWonByPlayer2]
      omega

lemma setCounts_eq (sets : List SetScore) :
    setCounts sets = (setsWonByPlayer1 sets, setsWonByPlayer2 sets) := by
  have h := setCounts_go sets 0 0
  simpa [setCounts] using h

/-- Claim C4: the Score Evaluator counts a set for a side exactly when that
side's game count is strictly greater (ties count for neither), returns true
iff player1's set count strictly exceeds player2's (so equal counts give
false and credit player2), and ignores the optional tiebreak pair. -/
theorem scoreEvaluator_correct (sets : List SetScore) (tb : Option SetScore) :
    (isPlayer1Winner { sets := sets, tiebreak := tb }
      = decide (setsWonByPlayer2 sets < setsWonByPlayer1 sets))
    ∧ (setsWonByPlayer1 sets = setsWonByPlayer2 sets →
        isPlayer1Winner { sets := sets, tiebreak := tb } = false) := by
  constructor
  · simp [isPlayer1Winner, setCounts_eq]
  · intro h
    simp [isPlayer1Winner, setCounts_eq, h]

/-- Witness for C4: a score with one tied set has equal set counts and yields
player1-is-winner = false, per the third conjunct of the theorem. -/
theorem scoreEvaluator_correct_witness :
    isPlayer1Winner { sets := [{ player1Score := 6, player2Score := 6 }],
                      tiebreak := some { player1Score := 7, player2Score := 5 } } = false :=
  (scoreEvaluator_correct [{ player1Score := 6, player2Score := 6 }]
    (some { player1Score := 7, player2Score := 5 })).2 (by decide)

/-- Category decision tree as worded in the claims and spec 4.2, evaluated
against the new points and the entry's pre-call category.  This definition
follows the spec's words; the theorems below compare the stateful code
against it. -/
def specCategoryTree (newPoints : Nat) (category : Category) : Category :=
  if newPoints ≥ 1000 ∧ category ≠ Category.SS then Category.SS
  else if newPoints ≥ 500 ∧ category ≠ Category.S ∧ category ≠ Category.SS then Category.S
  else if newPoints ≥ 250 ∧ category = Category.C then Category.B
  else if newPoints ≥ 100 ∧ category = Category.B then Category.A
  else category

/-- Per-player block of updatePlayerRankingsForMatch (storage.ts 407-435 and
437-464: the two blocks are identical up to the player id and the winner
flag).  existing is the looked-up entry (fetched before either block runs);
absent entries are created with the winner-dependent initial stats, present
entries get the stats update followed by the category if-chain keyed on the
looked-up entry's category. -/
def applyMatchResultForPlayer (s : MemStorage) (playerId rankingId : Nat) (isWinner : Bool)
    (existing : Option PlayerRanking) : MemStorage :=
  match existing with
  | none =>
    (createPlayerRanking s
      { playerId := playerId, rankingId := rankingId, category := Category.C,
        points := if isWinner then 10 else 0,
        wins := if isWinner then 1 else 0,
        losses := if isWinner then 0 else 1 }).2
  | some pr =>
    let points := pr.points + (if isWinner then 10 else 0)
    let wins := pr.wins + (if isWinner then 1 else 0)
    let losses := pr.losses + (if isWinner then 0 else 1)
    let s1 := updatePlayerRanking s pr.id
      (fun e => { e with points := points, wins := wins, losses := losses })
    if points ≥ 1000 ∧ pr.category ≠ Category.SS then
      updatePlayerRanking s1 pr.id (fun e => { e with category := Category.SS })
    else if points ≥ 500 ∧ pr.category ≠ Category.S ∧ pr.category ≠ Category.SS then
      updatePlayerRanking s1 pr.id (fun e => { e with category := Category.S })
    else if points ≥ 250 ∧ pr.category = Category.C then
      updatePlayerRanking s1 pr.id (fun e => { e with category := Category.B })
    else if points ≥ 100 ∧ pr.category = Category.B then
      updatePlayerRanking s1 pr.id (fun e => { e with category := Category.A })
    else s1

/-- MemStorage.updatePlayerRankingsForMatch: decide the winner from the score,
look both entries up, then process player1's block and player2's block in
order (player2's block still uses the entry fetched before player1's block
ran). -/
def updatePlayerRankingsForMatch (s : MemStorage) (m : Match) : MemStorage :=
  let player1IsWinner := isPlayer1Winner m.score
  let player1Ranking := getPlayerRanking s m.player1Id m.rankingId
  let player2Ranking := getPlayerRanking s m.player2Id m.rankingId
  let s1 := applyMatchResultForPlayer s m.player1Id m.rankingId player1IsWinner player1Ranking
  applyMatchResultForPlayer s1 m.player2Id m.rankingId (!player1IsWinner) player2Ranking

/-- Well-formedness of the ledger Map: ids are pairwise distinct and below the
auto-increment counter.  MemStorage maintains this by construction. -/
def WFpr (s : MemStorage) : Prop :=
  (s.playerRankings.map (fun pr => pr.id)).Nodup
    ∧ ∀ pr ∈ s.playerRankings, pr.id < s.playerRankingIdCounter

instance (s : MemStorage) : Decidable (WFpr s) := by
  unfold WFpr; infer_instance

lemma find?_map_pred {α : Type} (p : α → Bool) (g : α → α) (hg : ∀ x, p (g x) = p x) :
    ∀ l : List α, (l.map g).find? p = (l.find? p).map g := by
  intro l
  induction l with
  | nil => rfl
  | cons x rest ih =>
    rw [List.map_cons]
    cases hx : p x with
    | false =>
      have h1 : ¬ p (g x) = true := by rw [hg x, hx]; simp
      have h2 : ¬ p x = true := by rw [hx]; simp
      rw [List.find?_cons_of_neg _ h1, List.find?_cons_of_neg _ h2, ih]
    | true =>
      have h1 : p (g x) = true := by rw [hg x]; exact hx
      rw [List.find?_cons_of_pos _ h1, List.find?_cons_of_pos _ hx]
      rfl

lemma getPlayerRanking_update (s : MemStorage) (i : Nat) (f : PlayerRanking → PlayerRanking)
    (hp : ∀ x, (f x).playerId = x.playerId) (hr : ∀ x, (f x).rankingId = x.rankingId)
    (pid rid : Nat) :
    getPlayerRanking (updatePlayerRanking s i f) pid rid
      = (getPlayerRanking s pid rid).map (fun pr => if pr.id == i then f pr else pr) := by
  unfold getPlayerRanking updatePlayerRanking
  dsimp only
  apply find?_map_pred
  intro x
  by_cases hx : (x.id == i) = true
  · rw [if_pos hx, hp x, hr x]
  · rw [if_neg hx]

lemma getPlayerRanking_update_ne (s : MemStorage) (i : Nat) (f : PlayerRanking → PlayerRanking)
    (hp : ∀ x, (f x).playerId = x.playerId) (hr : ∀ x, (f x).rankingId = x.rankingId)
    (pid rid : Nat)
    (hid : ∀ e, getPlayerRanking s pid rid = some e → e.id ≠ i) :
    getPlayerRanking (updatePlayerRanking s i f) pid rid = getPlayerRanking s pid rid := by
  rw [getPlayerRanking_update s i f hp hr]
  cases hE : getPlayerRanking s pid rid with
  | none => rfl
  | some e =>
    have hne := hid e hE
    have hb : ¬ (e.id == i) = true := by simp [hne]
    simp only [Option.map_some']
    rw [if_neg hb]

lemma getPR_upd1_self (s : MemStorage) (pid rid : Nat) (pr : PlayerRanking)
    (h : getPlayerRanking s pid rid = some pr) (P W L : Nat) :
    getPlayerRanking
      (updatePlayerRanking s pr.id (fun e => { e with points := P, wins := W, losses := L }))
      pid rid
      = some { pr with points := P, wins := W, losses := L } := by
  have k1 := getPlayerRanking_update s pr.id
      (fun e => { e with points := P, wins := W, losses := L })
      (fun x => rfl) (fun x => rfl) pid rid
  rw [k1, h]
  simp

lemma getPR_upd2_self (s : MemStorage) (pid rid : Nat) (pr : PlayerRanking)
    (h : getPlayerRanking s pid rid = some pr) (P W L : Nat) (c : Category) :
    getPlayerRanking
      (updatePlayerRanking
        (updatePlayerRanking s pr.id (fun e => { e with points := P, wins := W, losses := L }))
        pr.id (fun e => { e with category := c }))
      pid rid
      = some { pr with points := P, wins := W, losses := L, category := c } := by
  have k2 := getPlayerRanking_update
      (updatePlayerRanking s pr.id (fun e => { e with points := P, wins := W, losses := L }))
      pr.id (fun e => { e with category := c })
      (fun x => rfl) (fun x => rfl) pid rid
  rw [k2, getPR_upd1_self s pid rid pr h P W L]
  simp

lemma getPlayerRanking_apply_self_some (s : MemStorage) (pid rid : Nat) (w : Bool)
    (pr : PlayerRanking) (h : getPlayerRanking s pid rid = some pr) :
    getPlayerRanking (applyMatchResultForPlayer s pid rid w (some pr)) pid rid
      = some { pr with
          points := pr.points + (if w then 10 else 0),
          wins := pr.wins + (if w then 1 else 0),
          losses := pr.losses + (if w then 0 else 1),
          category := specCategoryTree (pr.points + (if w then 10 else 0)) pr.category } := by
  unfold applyMatchResultForPlayer
  dsimp only
  split <;>
  [skip; skip] <;>
  (split
   case isTrue h1 =>
     rw [getPR_upd2_self s pid rid pr h _ _ _ _]
     unfold specCategoryTree
     rw [if_pos h1]
   case isFalse h1 =>
     split
     case isTrue h2 =>
       rw [getPR_upd2_self s pid rid pr h _ _ _ _]
       unfold specCategoryTree
       rw [if_neg h1, if_pos h2]
     case isFalse h2 =>
       split
       case isTrue h3 =>
         rw [getPR_upd2_self s pid rid pr h _ _ _ _]
         unfold specCategoryTree
         rw [if_neg h1, if_neg h2, if_pos h3]
       case isFalse h3 =>
         split
         case isTrue h4 =>
           rw [getPR_upd2_self s pid rid pr h _ _ _ _]
           unfold specCategoryTree
           rw [if_neg h1, if_neg h2, if_neg h3, if_pos h4]
         case isFalse h4 =>
           rw [getPR_upd1_self s pid rid pr h _ _ _]
           unfold specCategoryTree
           rw [if_neg h1, if_neg h2, if_neg h3, if_neg h4])

lemma getPlayerRanking_apply_self_none (s : MemStorage) (pid rid : Nat) (w : Bool)
    (h : getPlayerRanking s pid rid = none) :
    getPlayerRanking (applyMatchResultForPlayer s pid rid w none) pid rid
      = some { id := s.playerRankingIdCounter, playerId := pid, rankingId := rid,
               category := Category.C,
               points := if w then 10 else 0,
               wins := if w then 1 else 0,
               losses := if w then 0 else 1 } := by
  unfold applyMatchResultForPlayer createPlayerRanking
  unfold getPlayerRanking at h ⊢
  dsimp only
  rw [List.find?_append, h]
  simp

lemma getPlayerRanking_apply_frame (s : MemStorage) (pid rid : Nat) (w : Bool)
    (hnd : (s.playerRankings.map (fun pr => pr.id)).Nodup)
    (pid2 rid2 : Nat) (hne : pid2 ≠ pid) :
    getPlayerRanking (applyMatchResultForPlayer s pid rid w (getPlayerRanking s pid rid)) pid2 rid2
      = getPlayerRanking s pid2 rid2 := by
  cases hfind : getPlayerRanking s pid rid with
  | none =>
    unfold applyMatchResultForPlayer createPlayerRanking
    unfold getPlayerRanking
    dsimp only
    rw [List.find?_append]
    have hnew : (List.find? (fun pr => pr.playerId == pid2 && pr.rankingId == rid2)
        [({ id := s.playerRankingIdCounter, playerId := pid, rankingId := rid,
            category := Category.C,
            points := if w then 10 else 0,
            wins := if w then 1 else 0,
            losses := if w then 0 else 1 } : PlayerRanking)]) = none := by
      rw [List.find?_eq_none]
      intro x hx
      simp only [List.mem_singleton] at hx
      subst hx
      simp [Ne.symm hne]
    rw [hnew]
    cases List.find? (fun pr => pr.playerId == pid2 && pr.rankingId == rid2) s.playerRankings
      <;> rfl
  | some pr =>
    have hfindL : s.playerRankings.find?
        (fun x => x.playerId == pid && x.rankingId == rid) = some pr := hfind
    have hmem : pr ∈ s.playerRankings := List.mem_of_find?_eq_some hfindL
    have hkey : (pr.playerId == pid && pr.rankingId == rid) = true := by
      have hb := List.find?_some hfindL
      simpa using hb
    have hprid : pr.playerId = pid := by
      have hc := hkey
      simp only [Bool.and_eq_true, beq_iff_eq] at hc
      exact hc.1
    have hid : ∀ e, getPlayerRanking s pid2 rid2 = some e → e.id ≠ pr.id := by
      intro e he heq
      have heL : s.playerRankings.find?
          (fun x => x.playerId == pid2 && x.rankingId == rid2) = some e := he
      have hmem2 : e ∈ s.playerRankings := List.mem_of_find?_eq_some heL
      have hkey2 : (e.playerId == pid2 && e.rankingId == rid2) = true := by
        have hb2 := List.find?_some heL
        simpa using hb2
      have heid : e.playerId = pid2 := by
        have hc2 := hkey2
        simp only [Bool.and_eq_true, beq_iff_eq] at hc2
        exact hc2.1
      have : e = pr := List.inj_on_of_nodup_map hnd hmem2 hmem heq
      rw [this] at heid
      exact hne (heid ▸ hprid ▸ rfl)
    unfold applyMatchResultForPlayer
    dsimp only
    have frame1 : ∀ (f : PlayerRanking → PlayerRanking),
        (∀ x, (f x).playerId = x.playerId) → (∀ x, (f x).rankingId = x.rankingId) →
        getPlayerRanking (updatePlayerRanking s pr.id f) pid2 rid2
          = getPlayerRanking s pid2 rid2 := by
      intro f hp hr
      exact getPlayerRanking_update_ne s pr.id f hp hr pid2 rid2 hid
    have frame2 : ∀ (f g : PlayerRanking → PlayerRanking),
        (∀ x, (f x).playerId = x.playerId) → (∀ x, (f x).rankingId = x.rankingId) →
        (∀ x, (g x).playerId = x.playerId) → (∀ x, (g x).rankingId = x.rankingId) →
        getPlayerRanking (updatePlayerRanking (updatePlayerRanking s pr.id f) pr.id g) pid2 rid2
          = getPlayerRanking s pid2 rid2 := by
      intro f g hfp hfr hgp hgr
      have hid2 : ∀ e, getPlayerRanking (updatePlayerRanking s pr.id f) pid2 rid2 = some e →
          e.id ≠ pr.id := by
        intro e he
        rw [frame1 f hfp hfr] at he
        exact hid e he
      rw [getPlayerRanking_update_ne _ pr.id g hgp hgr pid2 rid2 hid2, frame1 f hfp hfr]
    split <;>
    [skip; skip] <;>
    (split
     case isTrue h1 =>
       exact frame2 _ _ (fun x => rfl) (fun x => rfl) (fun x => rfl) (fun x => rfl)
     case isFalse h1 =>
       split
       case isTrue h2 =>
         exact frame2 _ _ (fun x => rfl) (fun x => rfl) (fun x => rfl) (fun x => rfl)
       case isFalse h2 =>
         split
         case isTrue h3 =>
           exact frame2 _ _ (fun x => rfl) (fun x => rfl) (fun x => rfl) (fun x => rfl)
         case isFalse h3 =>
           split
           case isTrue h4 =>
             exact frame2 _ _ (fun x => rfl) (fun x => rfl) (fun x => rfl) (fun x => rfl)
           case isFalse h4 =>
             exact frame1 _ (fun x => rfl) (fun x => rfl))

lemma wfpr_updatePlayerRanking (s : MemStorage) (i : Nat) (f : PlayerRanking → PlayerRanking)
    (hf : ∀ x, (f x).id = x.id) (h : WFpr s) : WFpr (updatePlayerRanking s i f) := by
  obtain ⟨hnd, hb⟩ := h
  constructor
  · have hids : ((s.playerRankings.map (fun x => if x.id == i then f x else x)).map
        (fun pr => pr.id)) = s.playerRankings.map (fun pr => pr.id) := by
      rw [List.map_map]
      apply List.map_congr_left
      intro x hx
      by_cases hxi : (x.id == i) = true
      · simp only [Function.comp_apply, if_pos hxi, hf]
      · simp only [Function.comp_apply, if_neg hxi]
    unfold updatePlayerRanking
    dsimp only
    rw [hids]
    exact hnd
  · intro pr hpr
    unfold updatePlayerRanking at hpr ⊢
    dsimp only at hpr ⊢
    rw [List.mem_map] at hpr
    obtain ⟨x, hx, heq⟩ := hpr
    subst heq
    by_cases hxi : (x.id == i) = true
    · rw [if_pos hxi, hf]
      exact hb x hx
    · rw [if_neg hxi]
      exact hb x hx

lemma wfpr_createPlayerRanking (s : MemStorage) (ins : InsertPlayerRanking)
    (h : WFpr s) : WFpr (createPlayerRanking s ins).2 := by
  obtain ⟨hnd, hb⟩ := h
  unfold createPlayerRanking WFpr
  dsimp only
  constructor
  · rw [List.map_append]
    apply List.Nodup.append hnd (List.nodup_singleton _)
    intro a ha hb2
    simp only [List.map_cons, List.map_nil, List.mem_singleton] at hb2
    rw [List.mem_map] at ha
    obtain ⟨x, hx, hxa⟩ := ha
    have := hb x hx
    omega
  · intro pr hpr
    rw [List.mem_append] at hpr
    cases hpr with
    | inl hmem =>
      have := hb pr hmem
      omega
    | inr hmem =>
      simp only [List.mem_singleton] at hmem
      subst hmem
      exact Nat.lt_succ_self _

lemma wfpr_apply (s : MemStorage) (pid rid : Nat) (w : Bool) (h : WFpr s) :
    WFpr (applyMatchResultForPlayer s pid rid w (getPlayerRanking s pid rid)) := by
  cases hfind : getPlayerRanking s pid rid with
  | none =>
    unfold applyMatchResultForPlayer
    exact wfpr_createPlayerRanking s _ h
  | some pr =>
    unfold applyMatchResultForPlayer
    dsimp only
    split <;> try split
    all_goals try split
    all_goals try split
    all_goals try split
    all_goals
      first
        | (apply wfpr_updatePlayerRanking
           case hf => exact fun x => rfl
           apply wfpr_updatePlayerRanking
           case hf => exact fun x => rfl
           exact h)
        | (apply wfpr_updatePlayerRanking
           case hf => exact fun x => rfl
           exact h)

lemma final_player1_some (s : MemStorage) (m : Match)
    (hWF : WFpr s) (hne : m.player1Id ≠ m.player2Id) (pr : PlayerRanking)
    (h1 : getPlayerRanking s m.player1Id m.rankingId = some pr) :
    getPlayerRanking (updatePlayerRankingsForMatch s m) m.player1Id m.rankingId
      = some { pr with
          points := pr.points + (if isPlayer1Winner m.score then 10 else 0),
          wins := pr.wins + (if isPlayer1Winner m.score then 1 else 0),
          losses := pr.losses + (if isPlayer1Winner m.score then 0 else 1),
          category := specCategoryTree
            (pr.points + (if isPlayer1Winner m.score then 10 else 0)) pr.category } := by
  unfold updatePlayerRankingsForMatch
  dsimp only
  have hframe := getPlayerRanking_apply_frame s m.player1Id m.rankingId
    (isPlayer1Winner m.score) hWF.1 m.player2Id m.rankingId (Ne.symm hne)
  rw [h1] at hframe
  have hWF1 := wfpr_apply s m.player1Id m.rankingId (isPlayer1Winner m.score) hWF
  rw [h1] at hWF1
  rw [h1, ← hframe]
  have hframe2 := getPlayerRanking_apply_frame
    (applyMatchResultForPlayer s m.player1Id m.rankingId (isPlayer1Winner m.score) (some pr))
    m.player2Id m.rankingId (!isPlayer1Winner m.score) hWF1.1
    m.player1Id m.rankingId hne
  rw [hframe2]
  exact getPlayerRanking_apply_self_some s m.player1Id m.rankingId
    (isPlayer1Winner m.score) pr h1

lemma final_player1_none (s : MemStorage) (m : Match)
    (hWF : WFpr s) (hne : m.player1Id ≠ m.player2Id)
    (h1 : getPlayerRanking s m.player1Id m.rankingId = none) :
    getPlayerRanking (updatePlayerRankingsForMatch s m) m.player1Id m.rankingId
      = some { id := s.playerRankingIdCounter,
               playerId := m.player1Id, rankingId := m.rankingId,
               category := Category.C,
               points := if isPlayer1Winner m.score then 10 else 0,
               wins := if isPlayer1Winner m.score then 1 else 0,
               losses := if isPlayer1Winner m.score then 0 else 1 } := by
  unfold updatePlayerRankingsForMatch
  dsimp only
  have hframe := getPlayerRanking_apply_frame s m.player1Id m.rankingId
    (isPlayer1Winner m.score) hWF.1 m.player2Id m.rankingId (Ne.symm hne)
  rw [h1] at hframe
  have hWF1 := wfpr_apply s m.player1Id m.rankingId (isPlayer1Winner m.score) hWF
  rw [h1] at hWF1
  rw [h1, ← hframe]
  have hframe2 := getPlayerRanking_apply_frame
    (applyMatchResultForPlayer s m.player1Id m.rankingId (isPlayer1Winner m.score) none)
    m.player2Id m.rankingId (!isPlayer1Winner m.score) hWF1.1
    m.player1Id m.rankingId hne
  rw [hframe2]
  exact getPlayerRanking_apply_self_none s m.player1Id m.rankingId
    (isPlayer1Winner m.score) h1

lemma final_player2_some (s : MemStorage) (m : Match)
    (hWF : WFpr s) (hne : m.player1Id ≠ m.player2Id) (pr : PlayerRanking)
    (h2 : getPlayerRanking s m.player2Id m.rankingId = some pr) :
    getPlayerRanking (updatePlayerRankingsForMatch s m) m.player2Id m.rankingId
      = some { pr with
          points := pr.points + (if isPlayer1Winner m.score then 0 else 10),
          wins := pr.wins + (if isPlayer1Winner m.score then 0 else 1),
          losses := pr.losses + (if isPlayer1Winner m.score then 1 else 0),
          category := specCategoryTree
            (pr.points + (if isPlayer1Winner m.score then 0 else 10)) pr.category } := by
  unfold updatePlayerRankingsForMatch
  dsimp only
  have hframe := getPlayerRanking_apply_frame s m.player1Id m.rankingId
    (isPlayer1Winner m.score) hWF.1 m.player2Id m.rankingId (Ne.symm hne)
  rw [h2]
  have hfound : getPlayerRanking
      (applyMatchResultForPlayer s m.player1Id m.rankingId (isPlayer1Winner m.score)
        (getPlayerRanking s m.player1Id m.rankingId)) m.player2Id m.rankingId = some pr :=
    hframe.trans h2
  have hmain := getPlayerRanking_apply_self_some
    (applyMatchResultForPlayer s m.player1Id m.rankingId (isPlayer1Winner m.score)
      (getPlayerRanking s m.player1Id m.rankingId))
    m.player2Id m.rankingId (!isPlayer1Winner m.score) pr hfound
  rw [hmain]
  cases hw : isPlayer1Winner m.score <;> simp

lemma final_player2_none (s : MemStorage) (m : Match)
    (hWF : WFpr s) (hne : m.player1Id ≠ m.player2Id)
    (h2 : getPlayerRanking s m.player2Id m.rankingId = none) :
    ∃ e, getPlayerRanking (updatePlayerRankingsForMatch s m) m.player2Id m.rankingId = some e
      ∧ e.playerId = m.player2Id ∧ e.rankingId = m.rankingId
      ∧ e.category = Category.C
      ∧ e.points = (if isPlayer1Winner m.score then 0 else 10)
      ∧ e.wins = (if isPlayer1Winner m.score then 0 else 1)
      ∧ e.losses = (if isPlayer1Winner m.score then 1 else 0) := by
  unfold updatePlayerRankingsForMatch
  dsimp only
  have hframe := getPlayerRanking_apply_frame s m.player1Id m.rankingId
    (isPlayer1Winner m.score) hWF.1 m.player2Id m.rankingId (Ne.symm hne)
  rw [h2]
  have hfound : getPlayerRanking
      (applyMatchResultForPlayer s m.player1Id m.rankingId (isPlayer1Winner m.score)
        (getPlayerRanking s m.player1Id m.rankingId)) m.player2Id m.rankingId = none :=
    hframe.trans h2
  have hmain := getPlayerRanking_apply_self_none
    (applyMatchResultForPlayer s m.player1Id m.rankingId (isPlayer1Winner m.score)
      (getPlayerRanking s m.player1Id m.rankingId))
    m.player2Id m.rankingId (!isPlayer1Winner m.score) hfound
  refine ⟨_, hmain, rfl, rfl, rfl, ?_, ?_, ?_⟩ <;>
    cases hw : isPlayer1Winner m.score <;> simp

/-- Pre-call points of the ledger entry, 0 when the entry is absent. -/
def priorPoints (s : MemStorage) (pid rid : Nat) : Nat :=
  ((getPlayerRanking s pid rid).map (fun e => e.points)).getD 0

/-- Pre-call wins of the ledger entry, 0 when the entry is absent. -/
def priorWins (s : MemStorage) (pid rid : Nat) : Nat :=
  ((getPlayerRanking s pid rid).map (fun e => e.wins)).getD 0

/-- Pre-call losses of the ledger entry, 0 when the entry is absent. -/
def priorLosses (s : MemStorage) (pid rid : Nat) : Nat :=
  ((getPlayerRanking s pid rid).map (fun e => e.losses)).getD 0

/-- Claim C1: for every existing ledger entry updated by the match-approval
procedure, the category re-evaluation applied after the points update equals
the four-branch decision tree (specCategoryTree) evaluated against the new
points and the entry's pre-call category; in particular a C entry reaching
1000 points is set directly to SS with no cascading. -/
theorem categoryReevaluation_matches_decision_tree (s : MemStorage) (m : Match)
    (hWF : WFpr s) (hne : m.player1Id ≠ m.player2Id) :
    (∀ pr, getPlayerRanking s m.player1Id m.rankingId = some pr →
      (getPlayerRanking (updatePlayerRankingsForMatch s m) m.player1Id m.rankingId).map
          (fun e => e.category)
        = some (specCategoryTree
            (pr.points + (if isPlayer1Winner m.score then 10 else 0)) pr.category))
    ∧ (∀ pr, getPlayerRanking s m.player2Id m.rankingId = some pr →
      (getPlayerRanking (updatePlayerRankingsForMatch s m) m.player2Id m.rankingId).map
          (fun e => e.category)
        = some (specCategoryTree
            (pr.points + (if isPlayer1Winner m.score then 0 else 10)) pr.category)) := by
  constructor
  · intro pr h1
    rw [final_player1_some s m hWF hne pr h1]
    rfl
  · intro pr h2
    rw [final_player2_some s m hWF hne pr h2]
    rfl

/-- Concrete store for witnesses: player 1 at category C with 990 points and
player 2 at category C, both in ranking 1. -/
def wStoreC990 : MemStorage :=
  { users := [], rankings := [], locations := [], matchesMap := [],
    playerRankings :=
      [{ id := 1, playerId := 1, rankingId := 1, category := Category.C,
         points := 990, wins := 99, losses := 0 },
       { id := 2, playerId := 2, rankingId := 1, category := Category.C,
         points := 0, wins := 0, losses := 3 }],
    userIdCounter := 3, rankingIdCounter := 2, playerRankingIdCounter := 3,
    locationIdCounter := 1, matchIdCounter := 1 }

/-- Concrete approved match in ranking 1 that player 1 wins 6-3 6-4. -/
def wMatch12 : Match :=
  { id := 1, rankingId := 1, player1Id := 1, player2Id := 2,
    locationId := none, locationName := none, photoUrl := none,
    status := MatchStatus.approved, rejectionReason := none,
    playedAt := 0, createdAt := none,
    score := { sets := [{ player1Score := 6, player2Score := 3 },
                        { player1Score := 6, player2Score := 4 }],
               tiebreak := none } }

/-- Witness for C1: the C player at 990 points who wins reaches 1000 points and
is promoted straight to SS. -/
theorem categoryReevaluation_matches_decision_tree_witness :
    (getPlayerRanking (updatePlayerRankingsForMatch wStoreC990 wMatch12) 1 1).map
        (fun e => e.category) = some Category.SS := by
  have h := (categoryReevaluation_matches_decision_tree wStoreC990 wMatch12
      (by decide) (by decide)).1
    { id := 1, playerId := 1, rankingId := 1, category := Category.C,
      points := 990, wins := 99, losses := 0 } (by rfl)
  exact h.trans (by decide)

/-- Concrete store for C2: player 1 at category B with 240 points in ranking 1. -/
def wStoreB240 : MemStorage :=
  { users := [], rankings := [], locations := [], matchesMap := [],
    playerRankings :=
      [{ id := 1, playerId := 1, rankingId := 1, category := Category.B,
         points := 240, wins := 24, losses := 2 }],
    userIdCounter := 3, rankingIdCounter := 2, playerRankingIdCounter := 2,
    locationIdCounter := 1, matchIdCounter := 1 }

/-- Counterexample to claim C2: the B-category entry at 240 points that wins a
match reaches 250 points and is promoted to A (not left at B as claimed),
because the fourth branch requires only points at least 100 and category
exactly B. -/
theorem b240_win_stays_B_counterexample :
    (getPlayerRanking (updatePlayerRankingsForMatch wStoreB240 wMatch12) 1 1).map
        (fun e => (e.points, e.category)) = some (250, Category.A)
    ∧ Category.A ≠ Category.B := by
  constructor
  · decide
  · decide

/-- Claim C2 as amended: a ledger entry with points 240 and category B whose
player wins an approved match ends with points 250 and category A (the
points-100-and-category-B branch fires). -/
theorem b240_win_promotes_to_A (s : MemStorage) (m : Match)
    (hWF : WFpr s) (hne : m.player1Id ≠ m.player2Id) (pr : PlayerRanking)
    (h1 : getPlayerRanking s m.player1Id m.rankingId = some pr)
    (hpts : pr.points = 240) (hcat : pr.category = Category.B)
    (hw : isPlayer1Winner m.score = true) :
    (getPlayerRanking (updatePlayerRankingsForMatch s m) m.player1Id m.rankingId).map
        (fun e => (e.points, e.category)) = some (250, Category.A) := by
  rw [final_player1_some s m hWF hne pr h1]
  simp only [Option.map_some', hw, hpts, hcat]
  decide

/-- Witness for the amended C2 at the concrete store. -/
theorem b240_win_promotes_to_A_witness :
    (getPlayerRanking (updatePlayerRankingsForMatch wStoreB240 wMatch12) 1 1).map
        (fun e => (e.points, e.category)) = some (250, Category.A) :=
  b240_win_promotes_to_A wStoreB240 wMatch12 (by decide) (by decide)
    { id := 1, playerId := 1, rankingId := 1, category := Category.B,
      points := 240, wins := 24, losses := 2 }
    (by rfl) (by rfl) (by rfl) (by decide)

/-- Claim C3: for every match with distinct players processed by the ledger
update, exactly one side (chosen by isPlayer1Winner) gets +10 points and +1
win and the other gets +1 loss with points and wins unchanged, counting a
missing entry as 0/0/0 (so a created winner entry is 10/1/0 and a created
loser entry is 0/0/1). -/
theorem matchApproval_win_loss_attribution (s : MemStorage) (m : Match)
    (hWF : WFpr s) (hne : m.player1Id ≠ m.player2Id) :
    ∃ e1 e2,
      getPlayerRanking (updatePlayerRankingsForMatch s m) m.player1Id m.rankingId = some e1
      ∧ getPlayerRanking (updatePlayerRankingsForMatch s m) m.player2Id m.rankingId = some e2
      ∧ e1.points = priorPoints s m.player1Id m.rankingId
          + (if isPlayer1Winner m.score then 10 else 0)
      ∧ e1.wins = priorWins s m.player1Id m.rankingId
          + (if isPlayer1Winner m.score then 1 else 0)
      ∧ e1.losses = priorLosses s m.player1Id m.rankingId
          + (if isPlayer1Winner m.score then 0 else 1)
      ∧ e2.points = priorPoints s m.player2Id m.rankingId
          + (if isPlayer1Winner m.score then 0 else 10)
      ∧ e2.wins = priorWins s m.player2Id m.rankingId
          + (if isPlayer1Winner m.score then 0 else 1)
      ∧ e2.losses = priorLosses s m.player2Id m.rankingId
          + (if isPlayer1Winner m.score then 1 else 0) := by
  rcases hp1 : getPlayerRanking s m.player1Id m.rankingId with _ | pr1
  · rcases hp2 : getPlayerRanking s m.player2Id m.rankingId with _ | pr2
    · obtain ⟨e2, he2, _, _, _, hp, hw2, hl⟩ := final_player2_none s m hWF hne hp2
      refine ⟨_, e2, final_player1_none s m hWF hne hp1, he2, ?_, ?_, ?_, ?_, ?_, ?_⟩ <;>
        simp [priorPoints, priorWins, priorLosses, hp1, hp2, hp, hw2, hl]
    · refine ⟨_, _, final_player1_none s m hWF hne hp1,
        final_player2_some s m hWF hne pr2 hp2, ?_, ?_, ?_, ?_, ?_, ?_⟩ <;>
        simp [priorPoints, priorWins, priorLosses, hp1, hp2]
  · rcases hp2 : getPlayerRanking s m.player2Id m.rankingId with _ | pr2
    · obtain ⟨e2, he2, _, _, _, hp, hw2, hl⟩ := final_player2_none s m hWF hne hp2
      refine ⟨_, e2, final_player1_some s m hWF hne pr1 hp1, he2, ?_, ?_, ?_, ?_, ?_, ?_⟩ <;>
        simp [priorPoints, priorWins, priorLosses, hp1, hp2, hp, hw2, hl]
    · refine ⟨_, _, final_player1_some s m hWF hne pr1 hp1,
        final_player2_some s m hWF hne pr2 hp2, ?_, ?_, ?_, ?_, ?_, ?_⟩ <;>
        simp [priorPoints, priorWins, priorLosses, hp1, hp2]

/-- Witness for C3: at the concrete store both entries exist and the winner and
loser deltas are observed. -/
theorem matchApproval_win_loss_attribution_witness :
    ∃ e1 e2,
      getPlayerRanking (updatePlayerRankingsForMatch wStoreC990 wMatch12) 1 1 = some e1
      ∧ getPlayerRanking (updatePlayerRankingsForMatch wStoreC990 wMatch12) 2 1 = some e2
      ∧ e1.points = priorPoints wStoreC990 1 1 + (if isPlayer1Winner wMatch12.score then 10 else 0)
      ∧ e1.wins = priorWins wStoreC990 1 1 + (if isPlayer1Winner wMatch12.score then 1 else 0)
      ∧ e1.losses = priorLosses wStoreC990 1 1 + (if isPlayer1Winner wMatch12.score then 0 else 1)
      ∧ e2.points = priorPoints wStoreC990 2 1 + (if isPlayer1Winner wMatch12.score then 0 else 10)
      ∧ e2.wins = priorWins wStoreC990 2 1 + (if isPlayer1Winner wMatch12.score then 0 else 1)
      ∧ e2.losses = priorLosses wStoreC990 2 1 + (if isPlayer1Winner wMatch12.score then 1 else 0) :=
  matchApproval_win_loss_attribution wStoreC990 wMatch12 (by decide) (by decide)

/-- Claim C9: the ledger update preserves points = 10 * wins for the two
players' entries, and entries it creates satisfy it. -/
theorem pointsTenTimesWins_invariant (s : MemStorage) (m : Match)
    (hWF : WFpr s) (hne : m.player1Id ≠ m.player2Id)
    (h1 : ∀ pr, getPlayerRanking s m.player1Id m.rankingId = some pr →
      pr.points = 10 * pr.wins)
    (h2 : ∀ pr, getPlayerRanking s m.player2Id m.rankingId = some pr →
      pr.points = 10 * pr.wins) :
    (∀ pr, getPlayerRanking (updatePlayerRankingsForMatch s m) m.player1Id m.rankingId
        = some pr → pr.points = 10 * pr.wins)
    ∧ (∀ pr, getPlayerRanking (updatePlayerRankingsForMatch s m) m.player2Id m.rankingId
        = some pr → pr.points = 10 * pr.wins) := by
  constructor
  · intro pr hpr
    rcases hp1 : getPlayerRanking s m.player1Id m.rankingId with _ | pr1
    · rw [final_player1_none s m hWF hne hp1] at hpr
      cases hpr
      cases hw : isPlayer1Winner m.score <;> simp [hw]
    · rw [final_player1_some s m hWF hne pr1 hp1] at hpr
      cases hpr
      have hinv := h1 pr1 hp1
      cases hw : isPlayer1Winner m.score <;> (simp [hw, hinv]; try ring)
  · intro pr hpr
    rcases hp2 : getPlayerRanking s m.player2Id m.rankingId with _ | pr2
    · obtain ⟨e2, he2, _, _, _, hp, hw2, _⟩ := final_player2_none s m hWF hne hp2
      rw [he2] at hpr
      cases hpr
      rw [hp, hw2]
      cases hw : isPlayer1Winner m.score <;> simp
    · rw [final_player2_some s m hWF hne pr2 hp2] at hpr
      cases hpr
      have hinv := h2 pr2 hp2
      cases hw : isPlayer1Winner m.score <;> (simp [hw, hinv]; try ring)

/-- Witness for C9 at the concrete store: player 1's post-call entry satisfies
points = 10 * wins. -/
theorem pointsTenTimesWins_invariant_witness :
    ∃ e, getPlayerRanking (updatePlayerRankingsForMatch wStoreC990 wMatch12) 1 1 = some e
      ∧ e.points = 10 * e.wins := by
  have h := (pointsTenTimesWins_invariant wStoreC990 wMatch12 (by decide) (by decide)
    (by intro pr hpr; cases hpr; rfl)
    (by intro pr hpr; cases hpr; rfl)).1
  rcases hlook : getPlayerRanking (updatePlayerRankingsForMatch wStoreC990 wMatch12) 1 1
    with _ | e
  · exact absurd hlook (by decide)
  · exact ⟨e, rfl, h e hlook⟩

/-- JS or-default on an optional string: `value || fallback`, where both
undefined and the empty string are falsy (storage.ts line 373). -/
def jsStringOr (v : Option String) (fallback : String) : String :=
  match v with
  | none => fallback
  | some str => if str == "" then fallback else str

/-- Map.set of an existing match key: in-place replacement. -/
def setMatchInStore (s : MemStorage) (id : Nat) (m2 : Match) : MemStorage :=
  { s with matchesMap := s.matchesMap.map (fun m => if m.id == id then m2 else m) }

/-- MemStorage.validateMatch (storage.ts 365-384): look the match up, set
status and rejectionReason, store it, and run the ledger update when
approving.  Returns the updated match (or none when the id is unknown). -/
def validateMatch (s : MemStorage) (matchId : Nat) (isApproved : Bool)
    (rejectionReason : Option String) : MemStorage × Option Match :=
  match getMatch s matchId with
  | none => (s, none)
  | some m =>
    let updatedMatch := { m with
      status := if isApproved then MatchStatus.approved else MatchStatus.rejected,
      rejectionReason := if isApproved then none
        else some (jsStringOr rejectionReason "No reason provided") }
    let s1 := setMatchInStore s matchId updatedMatch
    ((if isApproved then updatePlayerRankingsForMatch s1 updatedMatch else s1),
     some updatedMatch)

/-- MemStorage.createMatch: allocate the next id, spread the insert shape and
append (createdAt stays unset because the insert shape omits it). -/
def createMatch (s : MemStorage) (ins : InsertMatch) : Match × MemStorage :=
  let id := s.matchIdCounter
  let m : Match :=
    { id := id, rankingId := ins.rankingId, player1Id := ins.player1Id,
      player2Id := ins.player2Id, locationId := ins.locationId,
      locationName := ins.locationName, photoUrl := ins.photoUrl,
      status := ins.status, rejectionReason := ins.rejectionReason,
      playedAt := ins.playedAt, createdAt := none, score := ins.score }
  (m, { s with matchesMap := s.matchesMap ++ [m], matchIdCounter := id + 1 })

/-- HTTP-level error outcomes of the modelled route. -/
inductive ApiError
  | badRequest (message : String)
  | notFound (message : String)
deriving DecidableEq, Repr

/-- POST /api/matches handler (routes.ts 441-466), from the player-equality
check onward: reject self-play, resolve the ranking, set the initial status
from requiresValidation, create the match, and when it is auto-approved run
storage.validateMatch(id, true) before responding with the created match.
The session, suspension and ownership checks before this point belong to the
Access Policy, which spec sections 2 and 6 treat as an external collaborator,
and player1Id defaulting has already happened. -/
def createMatchRoute (s : MemStorage) (matchData : InsertMatch) :
    MemStorage × Except ApiError Match :=
  if matchData.player1Id == matchData.player2Id then
    (s, Except.error (ApiError.badRequest "You cannot play against yourself"))
  else
    match getRanking s matchData.rankingId with
    | none => (s, Except.error (ApiError.notFound "Ranking not found"))
    | some ranking =>
      let md2 := { matchData with
        status := if ranking.requiresValidation then MatchStatus.pending
                  else MatchStatus.approved }
      let created := createMatch s md2
      if created.1.status == MatchStatus.approved then
        ((validateMatch created.2 created.1.id true none).1, Except.ok created.1)
      else
        (created.2, Except.ok created.1)

lemma validateMatch_some (s : MemStorage) (matchId : Nat) (m : Match)
    (h : getMatch s matchId = some m) (b : Bool) (reason : Option String) :
    validateMatch s matchId b reason
      = ((if b then
            updatePlayerRankingsForMatch
              (setMatchInStore s matchId
                { m with
                  status := if b then MatchStatus.approved else MatchStatus.rejected,
                  rejectionReason := if b then none
                    else some (jsStringOr reason "No reason provided") })
              { m with
                status := if b then MatchStatus.approved else MatchStatus.rejected,
                rejectionReason := if b then none
                  else some (jsStringOr reason "No reason provided") }
          else
            setMatchInStore s matchId
              { m with
                status := if b then MatchStatus.approved else MatchStatus.rejected,
                rejectionReason := if b then none
                  else some (jsStringOr reason "No reason provided") }),
         some { m with
                status := if b then MatchStatus.approved else MatchStatus.rejected,
                rejectionReason := if b then none
                  else some (jsStringOr reason "No reason provided") }) := by
  unfold validateMatch
  rw [h]

lemma matchesMap_apply (s : MemStorage) (pid rid : Nat) (w : Bool)
    (o : Option PlayerRanking) :
    (applyMatchResultForPlayer s pid rid w o).matchesMap = s.matchesMap := by
  cases o with
  | none => rfl
  | some pr =>
    unfold applyMatchResultForPlayer
    dsimp only
    split <;> try split
    all_goals try split
    all_goals try split
    all_goals try split
    all_goals rfl

lemma getMatch_upfm (s : MemStorage) (m2 : Match) (mid : Nat) :
    getMatch (updatePlayerRankingsForMatch s m2) mid = getMatch s mid := by
  unfold getMatch updatePlayerRankingsForMatch
  dsimp only
  rw [matchesMap_apply, matchesMap_apply]

lemma getMatch_setMatchInStore (s : MemStorage) (matchId : Nat) (m m2 : Match)
    (h : getMatch s matchId = some m) (hid : m2.id = m.id) :
    getMatch (setMatchInStore s matchId m2) matchId = some m2 := by
  have hkey : (m.id == matchId) = true := by
    have hb := List.find?_some
      (show s.matchesMap.find? (fun x => x.id == matchId) = some m from h)
    simpa using hb
  have hmap := find?_map_pred (fun x : Match => x.id == matchId)
    (fun x => if x.id == matchId then m2 else x)
    (by
      intro x
      dsimp only
      by_cases hx : (x.id == matchId) = true
      · rw [if_pos hx, hx]
        simp only [hid, hkey]
      · rw [if_neg hx])
    s.matchesMap
  have hL : s.matchesMap.find? (fun x => x.id == matchId) = some m := h
  unfold getMatch setMatchInStore
  dsimp only
  rw [hmap, hL]
  simp only [Option.map_some']
  rw [if_pos hkey]

/-- Claim C7: a createMatch call whose resolved player1Id equals player2Id
fails with the bad-request validation error and leaves the store untouched,
whatever ranking id is referenced and whether it exists. -/
theorem createMatch_selfPlay_rejected (s : MemStorage) (matchData : InsertMatch)
    (h : matchData.player1Id = matchData.player2Id) :
    createMatchRoute s matchData
      = (s, Except.error (ApiError.badRequest "You cannot play against yourself")) := by
  unfold createMatchRoute
  rw [if_pos (by simp [h])]

/-- Empty store (no users, rankings, entries, locations or matches). -/
def emptyStore : MemStorage :=
  { users := [], rankings := [], playerRankings := [], locations := [],
    matchesMap := [], userIdCounter := 1, rankingIdCounter := 1,
    playerRankingIdCounter := 1, locationIdCounter := 1, matchIdCounter := 1 }

/-- Self-play insert data referencing a ranking id that does not exist. -/
def wInsertSelf : InsertMatch :=
  { rankingId := 42, player1Id := 7, player2Id := 7, locationId := none,
    locationName := none, photoUrl := none, status := MatchStatus.pending,
    rejectionReason := none, playedAt := 0,
    score := { sets := [{ player1Score := 6, player2Score := 0 }], tiebreak := none } }

/-- Witness for C7: self-play against a nonexistent ranking is rejected with no
mutation. -/
theorem createMatch_selfPlay_rejected_witness :
    createMatchRoute emptyStore wInsertSelf
      = (emptyStore, Except.error (ApiError.badRequest "You cannot play against yourself")) :=
  createMatch_selfPlay_rejected emptyStore wInsertSelf rfl

/-- Concrete pending match between players 1 and 2 in ranking 1. -/
def wMatchPending : Match :=
  { id := 1, rankingId := 1, player1Id := 1, player2Id := 2,
    locationId := none, locationName := some "Court 5", photoUrl := none,
    status := MatchStatus.pending, rejectionReason := none,
    playedAt := 3, createdAt := none,
    score := { sets := [{ player1Score := 6, player2Score := 3 }], tiebreak := none } }

/-- Store holding only the concrete pending match. -/
def wStorePending : MemStorage :=
  { users := [], rankings := [], playerRankings := [], locations := [],
    matchesMap := [wMatchPending], userIdCounter := 1, rankingIdCounter := 1,
    playerRankingIdCounter := 1, locationIdCounter := 1, matchIdCounter := 2 }

/-- Counterexample to claim C6 as stated: supplying the empty string as the
rejection reason stores the placeholder rather than the supplied reason,
because the source's JS or-default also replaces the falsy empty string. -/
theorem reject_reason_empty_counterexample :
    ((validateMatch wStorePending 1 false (some "")).2.map (fun m => m.rejectionReason))
      = some (some "No reason provided")
    ∧ ("No reason provided" : String) ≠ "" := by
  constructor
  · rfl
  · decide

/-- Claim C6 as amended: validateMatch(matchId, false, reason) on an existing
match sets status rejected, stores the supplied reason when it is nonempty
and the placeholder string when the reason is absent or empty, and creates
or modifies no ledger entry. -/
theorem validateMatch_reject (s : MemStorage) (matchId : Nat) (reason : Option String)
    (m : Match) (h : getMatch s matchId = some m) :
    ∃ m2, (validateMatch s matchId false reason).2 = some m2
      ∧ m2.status = MatchStatus.rejected
      ∧ (∀ r, reason = some r → r ≠ "" → m2.rejectionReason = some r)
      ∧ ((reason = none ∨ reason = some "") →
          m2.rejectionReason = some "No reason provided")
      ∧ (validateMatch s matchId false reason).1.playerRankings = s.playerRankings
      ∧ (validateMatch s matchId false reason).1.playerRankingIdCounter
          = s.playerRankingIdCounter := by
  rw [validateMatch_some s matchId m h false reason]
  refine ⟨_, rfl, rfl, ?_, ?_, rfl, rfl⟩
  · intro r hr hne
    subst hr
    show some (jsStringOr (some r) "No reason provided") = some r
    unfold jsStringOr
    dsimp only
    rw [if_neg (by simpa using hne)]
  · intro hc
    rcases hc with hc | hc <;> subst hc <;> rfl

/-- Witness for the amended C6: rejecting the concrete pending match with a
nonempty reason. -/
theorem validateMatch_reject_witness :
    ∃ m2, (validateMatch wStorePending 1 false (some "blurry photo")).2 = some m2
      ∧ m2.status = MatchStatus.rejected
      ∧ (∀ r, (some "blurry photo" : Option String) = some r → r ≠ "" →
          m2.rejectionReason = some r)
      ∧ (((some "blurry photo" : Option String) = none
            ∨ (some "blurry photo" : Option String) = some "") →
          m2.rejectionReason = some "No reason provided")
      ∧ (validateMatch wStorePending 1 false (some "blurry photo")).1.playerRankings
          = wStorePending.playerRankings
      ∧ (validateMatch wStorePending 1 false (some "blurry photo")).1.playerRankingIdCounter
          = wStorePending.playerRankingIdCounter :=
  validateMatch_reject wStorePending 1 (some "blurry photo") wMatchPending rfl

/-- Claim C10: validateMatch changes only status and rejectionReason.  On
approval rejectionReason is cleared to undefined (erasing any earlier
reason); on rejection likewise only status and rejectionReason change.  All
other fields of the stored and returned match are unchanged. -/
theorem validateMatch_frame (s : MemStorage) (matchId : Nat) (m : Match)
    (h : getMatch s matchId = some m) :
    (∃ m2, (validateMatch s matchId true none).2 = some m2
      ∧ m2.status = MatchStatus.approved
      ∧ m2.rejectionReason = none
      ∧ m2.id = m.id ∧ m2.rankingId = m.rankingId
      ∧ m2.player1Id = m.player1Id ∧ m2.player2Id = m.player2Id
      ∧ m2.locationId = m.locationId ∧ m2.locationName = m.locationName
      ∧ m2.photoUrl = m.photoUrl ∧ m2.playedAt = m.playedAt
      ∧ m2.createdAt = m.createdAt ∧ m2.score = m.score
      ∧ getMatch (validateMatch s matchId true none).1 matchId = some m2)
    ∧ (∀ reason, ∃ m2, (validateMatch s matchId false reason).2 = some m2
      ∧ m2.status = MatchStatus.rejected
      ∧ m2.id = m.id ∧ m2.rankingId = m.rankingId
      ∧ m2.player1Id = m.player1Id ∧ m2.player2Id = m.player2Id
      ∧ m2.locationId = m.locationId ∧ m2.locationName = m.locationName
      ∧ m2.photoUrl = m.photoUrl ∧ m2.playedAt = m.playedAt
      ∧ m2.createdAt = m.createdAt ∧ m2.score = m.score
      ∧ getMatch (validateMatch s matchId false reason).1 matchId = some m2) := by
  constructor
  · rw [validateMatch_some s matchId m h true none]
    refine ⟨_, rfl, rfl, rfl, rfl, rfl, rfl, rfl, rfl, rfl, rfl, rfl, rfl, rfl, ?_⟩
    exact (getMatch_upfm _ _ _).trans (getMatch_setMatchInStore s matchId m _ h rfl)
  · intro reason
    rw [validateMatch_some s matchId m h false reason]
    refine ⟨_, rfl, rfl, rfl, rfl, rfl, rfl, rfl, rfl, rfl, rfl, rfl, rfl, ?_⟩
    exact getMatch_setMatchInStore s matchId m _ h rfl

/-- Witness for C10: approving the concrete pending match clears the reason and
keeps the score. -/
theorem validateMatch_frame_witness :
    ∃ m2, (validateMatch wStorePending 1 true none).2 = some m2
      ∧ m2.rejectionReason = none ∧ m2.score = wMatchPending.score := by
  obtain ⟨m2, h1, _, h3, _, _, _, _, _, _, _, _, _, h13, _⟩ :=
    (validateMatch_frame wStorePending 1 wMatchPending rfl).1
  exact ⟨m2, h1, h3, h13⟩

lemma getPR_congr (sA sB : MemStorage) (hpr : sA.playerRankings = sB.playerRankings)
    (pid rid : Nat) : getPlayerRanking sA pid rid = getPlayerRanking sB pid rid := by
  unfold getPlayerRanking
  rw [hpr]

lemma apply_pr_congr (sA sB : MemStorage) (pid rid : Nat) (w : Bool)
    (o : Option PlayerRanking)
    (hpr : sA.playerRankings = sB.playerRankings)
    (hc : sA.playerRankingIdCounter = sB.playerRankingIdCounter) :
    (applyMatchResultForPlayer sA pid rid w o).playerRankings
      = (applyMatchResultForPlayer sB pid rid w o).playerRankings
    ∧ (applyMatchResultForPlayer sA pid rid w o).playerRankingIdCounter
      = (applyMatchResultForPlayer sB pid rid w o).playerRankingIdCounter := by
  cases o with
  | none =>
    unfold applyMatchResultForPlayer createPlayerRanking
    dsimp only
    rw [hpr, hc]
    exact ⟨rfl, rfl⟩
  | some pr =>
    unfold applyMatchResultForPlayer updatePlayerRanking
    dsimp only
    constructor <;>
      (split <;> try split
       all_goals try split
       all_goals try split
       all_goals try split
       all_goals first
         | exact hc
         | rw [hpr])

lemma upfm_pr_congr (sA sB : MemStorage) (m2 : Match)
    (hpr : sA.playerRankings = sB.playerRankings)
    (hc : sA.playerRankingIdCounter = sB.playerRankingIdCounter) :
    (updatePlayerRankingsForMatch sA m2).playerRankings
      = (updatePlayerRankingsForMatch sB m2).playerRankings
    ∧ (updatePlayerRankingsForMatch sA m2).playerRankingIdCounter
      = (updatePlayerRankingsForMatch sB m2).playerRankingIdCounter := by
  unfold updatePlayerRankingsForMatch
  dsimp only
  rw [getPR_congr sA sB hpr m2.player1Id m2.rankingId,
      getPR_congr sA sB hpr m2.player2Id m2.rankingId]
  have h1 := apply_pr_congr sA sB m2.player1Id m2.rankingId (isPlayer1Winner m2.score)
    (getPlayerRanking sB m2.player1Id m2.rankingId) hpr hc
  exact apply_pr_congr _ _ m2.player2Id m2.rankingId (!isPlayer1Winner m2.score)
    (getPlayerRanking sB m2.player2Id m2.rankingId) h1.1 h1.2

lemma getMatch_createMatch_self (s : MemStorage) (ins : InsertMatch)
    (hWFm : ∀ mm ∈ s.matchesMap, mm.id < s.matchIdCounter) :
    getMatch (createMatch s ins).2 (createMatch s ins).1.id = some (createMatch s ins).1 := by
  unfold createMatch getMatch
  dsimp only
  rw [List.find?_append]
  have hnone : s.matchesMap.find? (fun x => x.id == s.matchIdCounter) = none := by
    rw [List.find?_eq_none]
    intro x hx
    have := hWFm x hx
    simp only [beq_iff_eq]
    omega
  rw [hnone]
  simp

/-- Claim C5: createMatch on an existing ranking with distinct players yields a
match whose status is approved and whose ledger update runs as part of
creation when requiresValidation is false (the final ledger equals the
Ranking Ledger update applied for a match carrying the created match's
players, ranking and score); with the flag true the match is pending and no
ledger entry is created or modified. -/
theorem createMatch_validation_flag (s : MemStorage) (matchData : InsertMatch)
    (hne : matchData.player1Id ≠ matchData.player2Id)
    (r : Ranking) (hr : getRanking s matchData.rankingId = some r)
    (hWFm : ∀ mm ∈ s.matchesMap, mm.id < s.matchIdCounter) :
    ∃ m, (createMatchRoute s matchData).2 = Except.ok m
      ∧ m.player1Id = matchData.player1Id ∧ m.player2Id = matchData.player2Id
      ∧ m.rankingId = matchData.rankingId ∧ m.score = matchData.score
      ∧ (r.requiresValidation = true →
          m.status = MatchStatus.pending
          ∧ (createMatchRoute s matchData).1.playerRankings = s.playerRankings
          ∧ (createMatchRoute s matchData).1.playerRankingIdCounter
              = s.playerRankingIdCounter)
      ∧ (r.requiresValidation = false →
          m.status = MatchStatus.approved
          ∧ ∃ u : Match,
              (createMatchRoute s matchData).1.playerRankings
                = (updatePlayerRankingsForMatch s u).playerRankings
              ∧ u.player1Id = matchData.player1Id
              ∧ u.player2Id = matchData.player2Id
              ∧ u.rankingId = matchData.rankingId
              ∧ u.score = matchData.score) := by
  unfold createMatchRoute
  rw [if_neg (by simpa using hne), hr]
  dsimp only
  cases hrv : r.requiresValidation with
  | true =>
    refine ⟨_, rfl, rfl, rfl, rfl, rfl, ?_, ?_⟩
    · intro
      exact ⟨rfl, rfl, rfl⟩
    · intro habs
      exact absurd habs (by decide)
  | false =>
    have hfound := getMatch_createMatch_self s
      { matchData with status := if false then MatchStatus.pending else MatchStatus.approved }
      hWFm
    rw [validateMatch_some _ _ _ hfound true none]
    refine ⟨_, rfl, rfl, rfl, rfl, rfl, ?_, ?_⟩
    · intro habs
      exact absurd habs (by decide)
    · intro
      refine ⟨rfl, _, (upfm_pr_congr _ s _ ?_ ?_).1, rfl, rfl, rfl, rfl⟩ <;> rfl

/-- Concrete ranking that does not require validation. -/
def wRankingNoVal : Ranking :=
  { id := 1, name := "City Open", description := none, isPublic := true,
    requiresValidation := false, createdById := 1 }

/-- Store holding only the no-validation ranking. -/
def wStoreRanked : MemStorage :=
  { users := [], rankings := [wRankingNoVal], playerRankings := [], locations := [],
    matchesMap := [], userIdCounter := 1, rankingIdCounter := 2,
    playerRankingIdCounter := 1, locationIdCounter := 1, matchIdCounter := 1 }

/-- Insert data for a match between players 1 and 2 in ranking 1. -/
def wInsert12 : InsertMatch :=
  { rankingId := 1, player1Id := 1, player2Id := 2, locationId := none,
    locationName := none, photoUrl := none, status := MatchStatus.pending,
    rejectionReason := none, playedAt := 0,
    score := { sets := [{ player1Score := 6, player2Score := 3 }], tiebreak := none } }

/-- Witness for C5: creating a match on the no-validation ranking returns an
approved match. -/
theorem createMatch_validation_flag_witness :
    ∃ m, (createMatchRoute wStoreRanked wInsert12).2 = Except.ok m
      ∧ m.status = MatchStatus.approved := by
  obtain ⟨m, hok, _, _, _, _, _, hfalse⟩ :=
    createMatch_validation_flag wStoreRanked wInsert12 (by decide) wRankingNoVal rfl
      (by intro mm hmm; cases hmm)
  exact ⟨m, hok, (hfalse rfl).1⟩

/-- PlayerWithRanking view type from shared/schema.ts. -/
structure PlayerWithRanking where
  playerId : Nat
  username : String
  fullName : String
  photoUrl : Option String
  category : Category
  points : Nat
  position : Nat
  wins : Nat
  losses : Nat
  isCurrentUser : Bool
deriving DecidableEq, Repr

/-- Stable insertion step for the descending points sort: a later element goes
after every element whose points are greater or equal. -/
def insertByPointsDesc (x : PlayerRanking) : List PlayerRanking → List PlayerRanking
  | [] => [x]
  | y :: rest =>
    if x.points ≤ y.points then y :: insertByPointsDesc x rest else x :: y :: rest

/-- The source sorts with Array.prototype.sort and comparator
comparing b.points against a.points; ECMAScript sort is stable, and a stable sort
for a total comparator has a unique result, realised here as a stable
insertion sort by points descending. -/
def sortByPointsDesc (l : List PlayerRanking) : List PlayerRanking :=
  l.foldl (fun acc x => insertByPointsDesc x acc) []

/-- Enrichment loop of getRankingPlayers (storage.ts 190-208): walk the sorted
entries with a 1-based position counter, joining each entry with its user and
silently skipping entries whose user id is not in the users Map (the counter
still advances for skipped entries). -/
def enrichPlayers (users : List User) : Nat → List PlayerRanking → List PlayerWithRanking
  | _, [] => []
  | i, pr :: rest =>
    match users.find? (fun u => u.id == pr.playerId) with
    | some user =>
      { playerId := user.id, username := user.username, fullName := user.fullName,
        photoUrl := user.photoUrl, category := pr.category, points := pr.points,
        position := i + 1, wins := pr.wins, losses := pr.losses,
        isCurrentUser := false } :: enrichPlayers users (i + 1) rest
    | none => enrichPlayers users (i + 1) rest

/-- MemStorage.getRankingPlayers (storage.ts 176-211): filter the ledger by
ranking, optionally by category (the category parameter of the source is a
string checked for truthiness; actual categories are nonempty strings, so the
filter applies exactly when a category is supplied), sort by points
descending, then enrich with user data. -/
def getRankingPlayers (s : MemStorage) (rankingId : Nat) (category : Option Category) :
    List PlayerWithRanking :=
  let inRanking := s.playerRankings.filter (fun pr => pr.rankingId == rankingId)
  let filtered :=
    match category with
    | some c => inRanking.filter (fun pr => pr.category == c)
    | none => inRanking
  enrichPlayers s.users 0 (sortByPointsDesc filtered)

/-- Observable data of a returned row: player id, category, points, wins,
losses. -/
def pwrData (x : PlayerWithRanking) : Nat × Category × Nat × Nat × Nat :=
  (x.playerId, x.category, x.points, x.wins, x.losses)

/-- Observable data of a ledger entry, matching pwrData. -/
def prData (pr : PlayerRanking) : Nat × Category × Nat × Nat × Nat :=
  (pr.playerId, pr.category, pr.points, pr.wins, pr.losses)

/-- Whether the entry's player exists in the users Map. -/
def userExists (users : List User) (pr : PlayerRanking) : Bool :=
  (users.find? (fun u => u.id == pr.playerId)).isSome

/-- The entries of a ranking the amended claim says are listed: right ranking,
right category when a filter is supplied, and a player present in the users
Map. -/
def entryMatches (s : MemStorage) (rid : Nat) (cf : Option Category)
    (pr : PlayerRanking) : Bool :=
  pr.rankingId == rid
    && (match cf with | some c => pr.category == c | none => true)
    && userExists s.users pr

lemma mem_insertByPointsDesc (x z : PlayerRanking) :
    ∀ l, z ∈ insertByPointsDesc x l ↔ z = x ∨ z ∈ l := by
  intro l
  induction l with
  | nil => simp [insertByPointsDesc]
  | cons y rest ih =>
    unfold insertByPointsDesc
    by_cases hc : x.points ≤ y.points
    · rw [if_pos hc]
      simp only [List.mem_cons, ih]
      tauto
    · rw [if_neg hc]
      simp only [List.mem_cons]

lemma pairwise_insertByPointsDesc (x : PlayerRanking) (l : List PlayerRanking)
    (h : l.Pairwise (fun a b => b.points ≤ a.points)) :
    (insertByPointsDesc x l).Pairwise (fun a b => b.points ≤ a.points) := by
  induction l with
  | nil => simp [insertByPointsDesc]
  | cons y rest ih =>
    rw [List.pairwise_cons] at h
    obtain ⟨hy, hrest⟩ := h
    unfold insertByPointsDesc
    by_cases hc : x.points ≤ y.points
    · rw [if_pos hc, List.pairwise_cons]
      refine ⟨?_, ih hrest⟩
      intro z hz
      rcases (mem_insertByPointsDesc x z rest).mp hz with rfl | hz2
      · exact hc
      · exact hy z hz2
    · rw [if_neg hc, List.pairwise_cons]
      push_neg at hc
      refine ⟨?_, List.pairwise_cons.mpr ⟨hy, hrest⟩⟩
      intro z hz
      rcases List.mem_cons.mp hz with rfl | hz2
      · omega
      · have := hy z hz2
        omega

lemma perm_insertByPointsDesc (x : PlayerRanking) :
    ∀ l, (insertByPointsDesc x l).Perm (x :: l) := by
  intro l
  induction l with
  | nil => exact List.Perm.refl _
  | cons y rest ih =>
    unfold insertByPointsDesc
    by_cases hc : x.points ≤ y.points
    · rw [if_pos hc]
      exact (ih.cons y).trans (List.Perm.swap x y rest)
    · rw [if_neg hc]

lemma perm_sort_go (l : List PlayerRanking) :
    ∀ acc, (l.foldl (fun a x => insertByPointsDesc x a) acc).Perm (acc ++ l) := by
  induction l with
  | nil => intro acc; simp
  | cons x rest ih =>
    intro acc
    simp only [List.foldl_cons]
    refine (ih (insertByPointsDesc x acc)).trans ?_
    refine ((perm_insertByPointsDesc x acc).append_right rest).trans ?_
    exact List.perm_middle.symm

lemma pairwise_sort_go (l : List PlayerRanking) :
    ∀ acc, acc.Pairwise (fun a b => b.points ≤ a.points) →
      (l.foldl (fun a x => insertByPointsDesc x a) acc).Pairwise
        (fun a b => b.points ≤ a.points) := by
  induction l with
  | nil => intro acc h; exact h
  | cons x rest ih =>
    intro acc hacc
    simp only [List.foldl_cons]
    exact ih (insertByPointsDesc x acc) (pairwise_insertByPointsDesc x acc hacc)

lemma sortByPointsDesc_perm (l : List PlayerRanking) : (sortByPointsDesc l).Perm l := by
  simpa using perm_sort_go l []

lemma sortByPointsDesc_pairwise (l : List PlayerRanking) :
    (sortByPointsDesc l).Pairwise (fun a b => b.points ≤ a.points) :=
  pairwise_sort_go l [] List.Pairwise.nil

lemma filter_insertByPointsDesc (p : Nat) (x : PlayerRanking) (l : List PlayerRanking)
    (hs : l.Pairwise (fun a b => b.points ≤ a.points)) :
    (insertByPointsDesc x l).filter (fun e => e.points == p)
      = if (x.points == p) = true then l.filter (fun e => e.points == p) ++ [x]
        else l.filter (fun e => e.points == p) := by
  induction l with
  | nil =>
    unfold insertByPointsDesc
    by_cases hx : (x.points == p) = true <;> simp [hx]
  | cons y rest ih =>
    rw [List.pairwise_cons] at hs
    obtain ⟨hy, hrest⟩ := hs
    unfold insertByPointsDesc
    by_cases hc : x.points ≤ y.points
    · rw [if_pos hc]
      by_cases hx : (x.points == p) = true <;>
        by_cases hyp : (y.points == p) = true <;>
          simp [List.filter_cons, hx, hyp, ih hrest]
    · rw [if_neg hc]
      push_neg at hc
      by_cases hx : (x.points == p) = true
      · have hxp : x.points = p := by simpa using hx
        have hempty : (y :: rest).filter (fun e => e.points == p) = [] := by
          rw [List.filter_eq_nil_iff]
          intro z hz
          rcases List.mem_cons.mp hz with rfl | hz2
          · simp only [beq_iff_eq]
            omega
          · have := hy z hz2
            simp only [beq_iff_eq]
            omega
        simp [List.filter_cons, hx, hempty]
      · simp [List.filter_cons, hx]

lemma filter_sort_go (p : Nat) (l : List PlayerRanking) :
    ∀ acc, acc.Pairwise (fun a b => b.points ≤ a.points) →
      (l.foldl (fun a x => insertByPointsDesc x a) acc).filter (fun e => e.points == p)
        = acc.filter (fun e => e.points == p) ++ l.filter (fun e => e.points == p) := by
  induction l with
  | nil => intro acc h; simp
  | cons x rest ih =>
    intro acc hacc
    simp only [List.foldl_cons]
    rw [ih (insertByPointsDesc x acc) (pairwise_insertByPointsDesc x acc hacc),
        filter_insertByPointsDesc p x acc hacc]
    by_cases hx : (x.points == p) = true <;> simp [List.filter_cons, hx]

lemma sortByPointsDesc_filter (p : Nat) (l : List PlayerRanking) :
    (sortByPointsDesc l).filter (fun e => e.points == p)
      = l.filter (fun e => e.points == p) := by
  simpa using filter_sort_go p l [] List.Pairwise.nil

lemma enrichPlayers_map_data (users : List User) :
    ∀ (l : List PlayerRanking) (i : Nat),
      (enrichPlayers users i l).map pwrData = (l.filter (userExists users)).map prData := by
  intro l
  induction l with
  | nil => intro i; rfl
  | cons pr rest ih =>
    intro i
    unfold enrichPlayers
    cases hf : users.find? (fun u => u.id == pr.playerId) with
    | none =>
      have huex : userExists users pr = false := by
        unfold userExists
        rw [hf]
        rfl
      simp [List.filter_cons, huex, ih]
    | some user =>
      have huid : user.id = pr.playerId := by simpa using List.find?_some hf
      have huex : userExists users pr = true := by
        unfold userExists
        rw [hf]
        rfl
      simp [List.filter_cons, huex, ih, pwrData, prData, huid]

lemma mem_enrichPlayers (users : List User) :
    ∀ (l : List PlayerRanking) (i : Nat) (z : PlayerWithRanking),
      z ∈ enrichPlayers users i l → ∃ pr ∈ l, z.points = pr.points := by
  intro l
  induction l with
  | nil => intro i z hz; cases hz
  | cons pr rest ih =>
    intro i z hz
    unfold enrichPlayers at hz
    split at hz
    · rcases List.mem_cons.mp hz with rfl | hz2
      · exact ⟨pr, List.mem_cons_self pr rest, rfl⟩
      · obtain ⟨pr2, hmem, hp⟩ := ih (i + 1) z hz2
        exact ⟨pr2, List.mem_cons_of_mem pr hmem, hp⟩
    · obtain ⟨pr2, hmem, hp⟩ := ih (i + 1) z hz
      exact ⟨pr2, List.mem_cons_of_mem pr hmem, hp⟩

lemma pairwise_enrichPlayers (users : List User) :
    ∀ (l : List PlayerRanking) (i : Nat),
      l.Pairwise (fun a b => b.points ≤ a.points) →
      (enrichPlayers users i l).Pairwise (fun a b => b.points ≤ a.points) := by
  intro l
  induction l with
  | nil => intro i _; exact List.Pairwise.nil
  | cons pr rest ih =>
    intro i h
    rw [List.pairwise_cons] at h
    obtain ⟨hpr, hrest⟩ := h
    unfold enrichPlayers
    split
    · rw [List.pairwise_cons]
      refine ⟨?_, ih (i + 1) hrest⟩
      intro z hz
      obtain ⟨pr2, hmem, hp⟩ := mem_enrichPlayers users rest (i + 1) z hz
      rw [hp]
      exact hpr pr2 hmem
    · exact ih (i + 1) hrest

lemma map_pwr_filter_points (p : Nat) :
    ∀ X : List PlayerWithRanking,
      (X.filter (fun x => x.points == p)).map pwrData
        = (X.map pwrData).filter (fun t => t.2.2.1 == p) := by
  intro X
  induction X with
  | nil => rfl
  | cons x rest ih =>
    rw [List.filter_cons, List.map_cons, List.filter_cons]
    by_cases hx : (x.points == p) = true
    · rw [if_pos hx, if_pos (show ((pwrData x).2.2.1 == p) = true from hx), List.map_cons, ih]
    · rw [if_neg hx, if_neg (show ¬ ((pwrData x).2.2.1 == p) = true from hx), ih]

lemma map_pr_filter_points (p : Nat) :
    ∀ X : List PlayerRanking,
      (X.filter (fun e => e.points == p)).map prData
        = (X.map prData).filter (fun t => t.2.2.1 == p) := by
  intro X
  induction X with
  | nil => rfl
  | cons x rest ih =>
    rw [List.filter_cons, List.map_cons, List.filter_cons]
    by_cases hx : (x.points == p) = true
    · rw [if_pos hx, if_pos (show ((prData x).2.2.1 == p) = true from hx), List.map_cons, ih]
    · rw [if_neg hx, if_neg (show ¬ ((prData x).2.2.1 == p) = true from hx), ih]

lemma filter_uex_pts (users : List User) (p : Nat) (X : List PlayerRanking) :
    List.filter (fun e => e.points == p) (X.filter (userExists users))
      = List.filter (userExists users) (X.filter (fun e => e.points == p)) := by
  rw [List.filter_filter, List.filter_filter]
  exact List.filter_congr (fun a _ => Bool.and_comm _ _)

/-- Claim C8 as amended: for every ranking id and optional category filter,
getRankingPlayers returns exactly the ledger entries of that ranking whose
player exists in the users Map (restricted to the category when a filter is
supplied), ordered by points descending with ties broken by
insertion/creation order (stated as: the returned data is a permutation of
the matching entries, is sorted by points descending, and for every points
value the rows with that value equal the matching entries with that value in
stored order). -/
theorem listLedgerEntries_ordering (s : MemStorage) (rid : Nat) (cf : Option Category) :
    ((getRankingPlayers s rid cf).map pwrData).Perm
        ((s.playerRankings.filter (entryMatches s rid cf)).map prData)
    ∧ (getRankingPlayers s rid cf).Pairwise (fun a b => b.points ≤ a.points)
    ∧ ∀ p : Nat,
        ((getRankingPlayers s rid cf).filter (fun x => x.points == p)).map pwrData
          = (s.playerRankings.filter
              (fun pr => entryMatches s rid cf pr && pr.points == p)).map prData := by
  unfold getRankingPlayers
  cases cf with
  | none =>
    dsimp only
    refine ⟨?_, ?_, ?_⟩
    · rw [enrichPlayers_map_data]
      refine List.Perm.map prData ?_
      have hperm := List.Perm.filter (userExists s.users)
        (sortByPointsDesc_perm (s.playerRankings.filter (fun pr => pr.rankingId == rid)))
      refine hperm.trans ?_
      rw [List.filter_filter]
      exact List.Perm.of_eq (List.filter_congr (by
        intro a ha
        simp [entryMatches, Bool.and_comm, Bool.and_left_comm, Bool.and_assoc]))
    · exact pairwise_enrichPlayers _ _ 0 (sortByPointsDesc_pairwise _)
    · intro p
      rw [map_pwr_filter_points, enrichPlayers_map_data, ← map_pr_filter_points,
          filter_uex_pts, sortByPointsDesc_filter]
      refine congrArg (List.map prData) ?_
      simp only [List.filter_filter]
      exact List.filter_congr (by
        intro a ha
        simp [entryMatches, Bool.and_comm, Bool.and_left_comm, Bool.and_assoc])
  | some c =>
    dsimp only
    refine ⟨?_, ?_, ?_⟩
    · rw [enrichPlayers_map_data]
      refine List.Perm.map prData ?_
      have hperm := List.Perm.filter (userExists s.users)
        (sortByPointsDesc_perm
          ((s.playerRankings.filter (fun pr => pr.rankingId == rid)).filter
            (fun pr => pr.category == c)))
      refine hperm.trans ?_
      rw [List.filter_filter, List.filter_filter]
      exact List.Perm.of_eq (List.filter_congr (by
        intro a ha
        simp [entryMatches, Bool.and_comm, Bool.and_left_comm, Bool.and_assoc]))
    · exact pairwise_enrichPlayers _ _ 0 (sortByPointsDesc_pairwise _)
    · intro p
      rw [map_pwr_filter_points, enrichPlayers_map_data, ← map_pr_filter_points,
          filter_uex_pts, sortByPointsDesc_filter]
      refine congrArg (List.map prData) ?_
      simp only [List.filter_filter]
      exact List.filter_congr (by
        intro a ha
        simp [entryMatches, Bool.and_comm, Bool.and_left_comm, Bool.and_assoc])

/-- Store with one ledger entry whose player (id 5) has no user record. -/
def wStoreOrphan : MemStorage :=
  { users := [], rankings := [], locations := [], matchesMap := [],
    playerRankings :=
      [{ id := 1, playerId := 5, rankingId := 1, category := Category.C,
         points := 7, wins := 0, losses := 1 }],
    userIdCounter := 1, rankingIdCounter := 1, playerRankingIdCounter := 2,
    locationIdCounter := 1, matchIdCounter := 1 }

/-- Counterexample to claim C8 as stated: a ledger entry of ranking 1 whose
player has no user record is dropped from the result, so the returned
sequence is not exactly the ledger entries of the ranking. -/
theorem listLedgerEntries_counterexample :
    getRankingPlayers wStoreOrphan 1 none = []
    ∧ (wStoreOrphan.playerRankings.filter (fun pr => pr.rankingId == 1)).length = 1 := by
  constructor
  · rfl
  · rfl

end TennisRank
